import Mathlib

/-!
Verification of the CoulombGalore pair-interaction library.

This file gives a shallow embedding, over the real numbers, of the
splitting-function framework in `coulombgalore.h` (and of the older
q-Pochhammer routine in `src/coulomb.h`), and proves or refutes the
frozen specification claims about it.

Modelling conventions:
* C++ `double` values are modelled as real numbers (`ℝ`); all identities
  proved here are exact real identities of the formulas the code computes.
* The IEEE infinities used as "unbounded" sentinels for `cutoff`,
  `debye_length` and `eps_sur` are modelled by `Option ℝ` parameters where
  `none` stands for infinity; the code only relies on `1/inf = 0` and
  `r < inf`, which the model reproduces literally at each use site.
* A negative `signed int` implicitly converted to the `unsigned int`
  parameters of `powi`, `factorial` or `binomial` wraps around to a huge
  unsigned value, on which those recursions are runaway / divide by zero;
  such calls are modelled as undefined (`Option.none`) by the checked
  wrappers `powiZ` and `binomialZ`.
-/

noncomputable section

open scoped Classical
open Finset

/-- 3-d vector, standing in for the opaque `Eigen::Vector3d` capability:
only dot product, cross product, norm and linear arithmetic are used. -/
structure Vec3 where
  x : ℝ
  y : ℝ
  z : ℝ

namespace Vec3

def dot (a b : Vec3) : ℝ := a.x * b.x + a.y * b.y + a.z * b.z

def cross (a b : Vec3) : Vec3 :=
  ⟨a.y * b.z - a.z * b.y, a.z * b.x - a.x * b.z, a.x * b.y - a.y * b.x⟩

def smul (c : ℝ) (v : Vec3) : Vec3 := ⟨c * v.x, c * v.y, c * v.z⟩

def add (a b : Vec3) : Vec3 := ⟨a.x + b.x, a.y + b.y, a.z + b.z⟩

def sub (a b : Vec3) : Vec3 := ⟨a.x - b.x, a.y - b.y, a.z - b.z⟩

def neg (a : Vec3) : Vec3 := ⟨-a.x, -a.y, -a.z⟩

def zero : Vec3 := ⟨0, 0, 0⟩

/-- `Eigen`'s `squaredNorm`: the dot product of a vector with itself. -/
def squaredNorm (v : Vec3) : ℝ := dot v v

/-- `Eigen`'s `norm`. -/
def norm (v : Vec3) : ℝ := Real.sqrt (squaredNorm v)

theorem squaredNorm_neg (v : Vec3) : squaredNorm (neg v) = squaredNorm v := by
  simp only [squaredNorm, dot, neg]; ring

theorem squaredNorm_nonneg (v : Vec3) : 0 ≤ squaredNorm v := by
  simp only [squaredNorm, dot]
  nlinarith [sq_nonneg v.x, sq_nonneg v.y, sq_nonneg v.z]

theorem dot_smul (a : Vec3) (c : ℝ) (b : Vec3) : dot a (smul c b) = c * dot a b := by
  simp [dot, smul]; ring

theorem dot_zero (a : Vec3) : dot a zero = 0 := by simp [dot, zero]

end Vec3

/-- `factorial` from `coulombgalore.h` (`n <= 1 ? 1 : n * factorial(n-1)`),
on the mathematical naturals. -/
def factorial : ℕ → ℕ
  | 0 => 1
  | n + 1 => (n + 1) * factorial n

theorem factorial_pos (n : ℕ) : 0 < factorial n := by
  induction n with
  | zero => simp [factorial]
  | succ n ih => simpa [factorial] using Nat.mul_pos (Nat.succ_pos n) ih

/-- `binomial` from `coulombgalore.h`: `factorial(n) / factorial(k) / factorial(n - k)`
(exact on naturals with `k ≤ n`). -/
def binomial (n k : ℕ) : ℕ := factorial n / factorial k / factorial (n - k)

theorem binomial_self_zero (n : ℕ) : binomial n 0 = 1 := by
  simp [binomial, factorial, Nat.div_self (factorial_pos n)]

/-- Checked conversion of a C++ `int` exponent to the `unsigned int` parameter
of `powi`: a negative exponent wraps around to a huge unsigned value (runaway
recursion / garbage), modelled as undefined. -/
def powiZ (x : ℝ) (n : ℤ) : Option ℝ :=
  if 0 ≤ n then some (x ^ n.toNat) else none

/-- Checked conversion of C++ `int` arguments to the `unsigned int` parameters
of `binomial`: if `n`, `k` or `n - k` is negative the converted argument wraps
around and `factorial` runs away / the division divides by zero, modelled as
undefined. -/
def binomialZ (n k : ℤ) : Option ℕ :=
  if 0 ≤ n ∧ 0 ≤ k ∧ k ≤ n then some (binomial n.toNat k.toNat) else none

/-- Sum of a loop body that may hit an undefined (wrapped-unsigned) call:
`none` as soon as any term is undefined. -/
def optSum (n : ℕ) (f : ℕ → Option ℝ) : Option ℝ :=
  (List.range n).foldr
    (fun c acc => Option.bind (f c) fun a => Option.bind acc fun b => some (a + b))
    (some 0)

theorem optSum_shift (n : ℕ) (f : ℕ → Option ℝ) (g : ℕ → ℝ) (x : ℝ)
    (h : ∀ c < n, f c = some (g c)) :
    (List.range n).foldr
      (fun c acc => Option.bind (f c) fun a => Option.bind acc fun b => some (a + b))
      (some x) = some ((∑ c in range n, g c) + x) := by
  induction n generalizing x with
  | zero => simp
  | succ n ih =>
    rw [List.range_succ, List.foldr_append]
    have hn : f n = some (g n) := h n (Nat.lt_succ_self n)
    simp only [List.foldr_cons, List.foldr_nil, hn, Option.some_bind]
    rw [ih (g n + x) (fun c hc => h c (Nat.lt_succ_of_lt hc))]
    rw [Finset.sum_range_succ]
    congr 1
    ring

theorem optSum_eq_some (n : ℕ) (f : ℕ → Option ℝ) (g : ℕ → ℝ)
    (h : ∀ c < n, f c = some (g c)) :
    optSum n f = some (∑ c in range n, g c) := by
  unfold optSum
  rw [optSum_shift n f g 0 h, add_zero]

/-- `qPochhammerSymbol` from `coulombgalore.h`: the product of partial geometric
sums `Ct = ∏_{n=1}^{P} Σ_{k=1}^{n+l} q^{k-1}` times `Dt = (1-q)^P`. -/
def qPochhammerSymbol (q : ℝ) (l P : ℕ) : ℝ :=
  (∏ n in range P, ∑ k in range (n + 1 + l), q ^ k) * (1 - q) ^ P

/-- `qPochhammerSymbolDerivative` from `coulombgalore.h`. -/
def qPochhammerSymbolDerivative (q : ℝ) (l P : ℕ) : ℝ :=
  let Ct := ∏ n in range P, ∑ k in range (n + 1 + l), q ^ k
  let dCt := (∑ n in range P,
      (∑ j in range (n + l), ((j : ℝ) + 1) * q ^ j) /
        (1 + ∑ j in range (n + l), q ^ (j + 1))) * Ct
  let Dt := (1 - q) ^ P
  let dDt := if 0 < P then -(P : ℝ) * (1 - q) ^ (P - 1) else 0
  Ct * dDt + dCt * Dt

/-- `qPochhammerSymbolSecondDerivative` from `coulombgalore.h`. -/
def qPochhammerSymbolSecondDerivative (q : ℝ) (l P : ℕ) : ℝ :=
  let Ct := ∏ n in range P, ∑ k in range (n + 1 + l), q ^ k
  let DS := ∑ n in range P,
      (∑ j in range (n + l), ((j : ℝ) + 1) * q ^ j) /
        (1 + ∑ j in range (n + l), q ^ (j + 1))
  let dDS := ∑ n in range P,
      ((∑ j in range (n + l - 1), ((j : ℝ) + 2) * ((j : ℝ) + 1) * q ^ j) *
          (1 + ∑ j in range (n + l), q ^ (j + 1)) -
        (∑ j in range (n + l), ((j : ℝ) + 1) * q ^ j) *
          (1 + ∑ j in range (n + l - 1), ((j : ℝ) + 2) * q ^ (j + 1))) /
        (1 + ∑ j in range (n + l), q ^ (j + 1)) /
        (1 + ∑ j in range (n + l), q ^ (j + 1))
  let dCt := Ct * DS
  let ddCt := dCt * DS + Ct * dDS
  let Dt := (1 - q) ^ P
  let dDt := if 0 < P then -(P : ℝ) * (1 - q) ^ (P - 1) else 0
  let ddDt := if 1 < P then (P : ℝ) * ((P : ℝ) - 1) * (1 - q) ^ (P - 2) else 0
  Ct * ddDt + 2 * dCt * dDt + ddCt * Dt

/-- `qPochhammerSymbolThirdDerivative` from `coulombgalore.h`. -/
def qPochhammerSymbolThirdDerivative (q : ℝ) (l P : ℕ) : ℝ :=
  let Ct := ∏ n in range P, ∑ k in range (n + 1 + l), q ^ k
  let DS := ∑ n in range P,
      (∑ j in range (n + l), ((j : ℝ) + 1) * q ^ j) /
        (1 + ∑ j in range (n + l), q ^ (j + 1))
  let dDS := ∑ n in range P,
      ((∑ j in range (n + l - 1), ((j : ℝ) + 2) * ((j : ℝ) + 1) * q ^ j) *
          (1 + ∑ j in range (n + l), q ^ (j + 1)) -
        (∑ j in range (n + l), ((j : ℝ) + 1) * q ^ j) *
          ((if 1 < n + 1 + l then 1 else 0) +
            ∑ j in range (n + l - 1), ((j : ℝ) + 2) * q ^ (j + 1))) /
        (1 + ∑ j in range (n + l), q ^ (j + 1)) /
        (1 + ∑ j in range (n + l), q ^ (j + 1))
  let ddDS := ∑ n in range P,
      ((∑ j in range (n + l - 2), ((j : ℝ) + 3) * ((j : ℝ) + 2) * ((j : ℝ) + 1) * q ^ j) *
          (1 + ∑ j in range (n + l), q ^ (j + 1)) *
          (1 + ∑ j in range (n + l), q ^ (j + 1)) -
        2 * (∑ j in range (n + l - 1), ((j : ℝ) + 2) * ((j : ℝ) + 1) * q ^ j) *
          ((if 1 < n + 1 + l then 1 else 0) +
            ∑ j in range (n + l - 1), ((j : ℝ) + 2) * q ^ (j + 1)) *
          (1 + ∑ j in range (n + l), q ^ (j + 1)) +
        2 * (∑ j in range (n + l), ((j : ℝ) + 1) * q ^ j) *
          ((if 1 < n + 1 + l then 1 else 0) +
            ∑ j in range (n + l - 1), ((j : ℝ) + 2) * q ^ (j + 1)) *
          ((if 1 < n + 1 + l then 1 else 0) +
            ∑ j in range (n + l - 1), ((j : ℝ) + 2) * q ^ (j + 1)) -
        (∑ j in range (n + l), ((j : ℝ) + 1) * q ^ j) *
          ((if 2 < n + 1 + l then 2 else 0) +
            ∑ j in range (n + l - 2), ((j : ℝ) + 3) * ((j : ℝ) + 2) * q ^ (j + 1)) *
          (1 + ∑ j in range (n + l), q ^ (j + 1))) /
        (1 + ∑ j in range (n + l), q ^ (j + 1)) /
        (1 + ∑ j in range (n + l), q ^ (j + 1)) /
        (1 + ∑ j in range (n + l), q ^ (j + 1))
  let dCt := Ct * DS
  let ddCt := dCt * DS + Ct * dDS
  let dddCt := ddCt * DS + 2 * dCt * dDS + Ct * ddDS
  let Dt := (1 - q) ^ P
  let dDt := if 0 < P then -(P : ℝ) * (1 - q) ^ (P - 1) else 0
  let ddDt := if 1 < P then (P : ℝ) * ((P : ℝ) - 1) * (1 - q) ^ (P - 2) else 0
  let dddDt := if 2 < P then -(P : ℝ) * ((P : ℝ) - 1) * ((P : ℝ) - 2) * (1 - q) ^ (P - 3) else 0
  dddCt * Dt + 3 * ddCt * dDt + 3 * dCt * ddDt + Ct * dddDt

/-- `qPochhammerSymbol` from the older header `src/coulomb.h`: the direct
product `∏_{i=0}^{P-1} (1 - q^{k+i})` accumulated with `temp = q^k`,
`temp *= q`. -/
def qPochhammerOld (q : ℝ) (k P : ℕ) : ℝ :=
  ∏ i in range P, (1 - q ^ (k + i))

/-- The error function, `std::erf` of `<cmath>`:
`erf x = 2/√π · ∫_0^x exp(-t²) dt`. -/
def erf (x : ℝ) : ℝ :=
  2 / Real.sqrt Real.pi * ∫ t in (0 : ℝ)..x, Real.exp (-t ^ 2)

/-- The complementary error function, `std::erfc` of `<cmath>`. -/
def erfc (x : ℝ) : ℝ := 1 - erf x

theorem erf_zero : erf 0 = 0 := by
  simp [erf]

theorem erf_neg (x : ℝ) : erf (-x) = -erf x := by
  unfold erf
  have h2 : (∫ t in (0 : ℝ)..x, Real.exp (-(-t) ^ 2)) =
      ∫ t in (-x)..(-(0 : ℝ)), Real.exp (-t ^ 2) :=
    intervalIntegral.integral_comp_neg (fun t => Real.exp (-t ^ 2))
  simp only [neg_sq, neg_zero] at h2
  have h3 : (∫ t in (0 : ℝ)..(-x), Real.exp (-t ^ 2)) =
      -∫ t in (-x)..(0 : ℝ), Real.exp (-t ^ 2) :=
    intervalIntegral.integral_symm (-x) 0
  rw [h3, ← h2]
  ring

theorem erfc_zero : erfc 0 = 1 := by
  simp [erfc, erf_zero]

/-- `2.0 * std::sqrt(std::atan(1.0))`, the `sqrt_pi` / `pi_sqrt` constant of
the Ewald and Wolf classes. -/
def sqrtPi : ℝ := 2 * Real.sqrt (Real.arctan 1)

theorem sqrtPi_eq : sqrtPi = Real.sqrt Real.pi := by
  rw [sqrtPi, Real.arctan_one, Real.sqrt_div (le_of_lt Real.pi_pos) 4]
  have h4 : Real.sqrt 4 = 2 := by
    rw [show (4 : ℝ) = 2 ^ 2 by norm_num, Real.sqrt_sq (by norm_num : (0 : ℝ) ≤ 2)]
  rw [h4]
  ring

theorem sqrtPi_pos : 0 < sqrtPi := by
  rw [sqrtPi_eq]
  exact Real.sqrt_pos.mpr Real.pi_pos

/-- The `Scheme` enum of `coulombgalore.h`. -/
inductive Scheme
  | plain
  | ewald
  | wolf
  | poissonsimple
  | poisson
  | qpotential
  | fanourgakis
deriving DecidableEq

/-- A constructed scheme object: the data of `SchemeBase` plus the
`EnergyImplementation` members.  The four function fields `srf`, `srf1`,
`srf2`, `srf3` are the CRTP-dispatched `short_range_function`,
`short_range_function_derivative`, `short_range_function_second_derivative`
and `short_range_function_third_derivative` of the concrete class.
`cutoff = none` models the IEEE `infinity` sentinel, and
`self_energy_prefactor` models the fixed-size `std::array<double, 2>`
member as a function on `Fin 2`. -/
structure SchemeState where
  scheme : Scheme
  name : String
  cutoff : Option ℝ
  kappa : ℝ
  srf : ℝ → ℝ
  srf1 : ℝ → ℝ
  srf2 : ℝ → ℝ
  srf3 : ℝ → ℝ
  self_energy_prefactor : Fin 2 → ℝ
  T0 : ℝ

namespace SchemeState

/-- The `invcutoff` member: `1.0 / cutoff`, with `1/inf = 0`. -/
def invcutoff (S : SchemeState) : ℝ := S.cutoff.elim 0 fun c => 1 / c

/-- The scalar guard `r < cutoff`; true for the infinite cutoff. -/
def inCut (S : SchemeState) (r : ℝ) : Prop := S.cutoff.elim True fun c => r < c

/-- The squared guard `r2 < cutoff2` where `cutoff2 = cutoff * cutoff`;
true for the infinite cutoff. -/
def inCut2 (S : SchemeState) (r2 : ℝ) : Prop := S.cutoff.elim True fun c => r2 < c * c

end SchemeState

/-- `EnergyImplementation::ion_potential`. -/
def ion_potential (S : SchemeState) (z r : ℝ) : ℝ :=
  if S.inCut r then z / r * S.srf (r * S.invcutoff) * Real.exp (-S.kappa * r) else 0

/-- `EnergyImplementation::dipole_potential`. -/
def dipole_potential (S : SchemeState) (mu rv : Vec3) : ℝ :=
  let r2 := rv.squaredNorm
  if S.inCut2 r2 then
    let r1 := Real.sqrt r2
    let q := r1 * S.invcutoff
    Vec3.dot mu rv / r2 / r1 * (S.srf q * (1 + S.kappa * r1) - q * S.srf1 q) *
      Real.exp (-S.kappa * r1)
  else 0

/-- `EnergyImplementation::ion_field`. -/
def ion_field (S : SchemeState) (z : ℝ) (rv : Vec3) : Vec3 :=
  let r2 := rv.squaredNorm
  if S.inCut2 r2 then
    let r1 := Real.sqrt r2
    let q := r1 * S.invcutoff
    Vec3.smul
      (z / r2 / r1 * (S.srf q * (1 + S.kappa * r1) - q * S.srf1 q) * Real.exp (-S.kappa * r1))
      rv
  else Vec3.zero

/-- `EnergyImplementation::dipole_field`. -/
def dipole_field (S : SchemeState) (mu rv : Vec3) : Vec3 :=
  let r2 := rv.squaredNorm
  if S.inCut2 r2 then
    let r1 := Real.sqrt r2
    let r3 := r1 * r2
    let q := r1 * S.invcutoff
    let fieldD := Vec3.smul
        (S.srf q * (1 + S.kappa * r1 + S.kappa * S.kappa * r2 / 3) -
          q * S.srf1 q * (1 + 2 / 3 * S.kappa * r1) + q * q / 3 * S.srf2 q)
        (Vec3.smul (1 / r3) (Vec3.sub (Vec3.smul (3 * Vec3.dot mu rv / r2) rv) mu))
    let fieldI := Vec3.smul
        ((S.srf q * S.kappa * S.kappa * r2 - 2 * S.kappa * r1 * q * S.srf1 q +
          S.srf2 q * q * q) / 3)
        (Vec3.smul (1 / r3) mu)
    Vec3.smul (Real.exp (-S.kappa * r1)) (Vec3.add fieldD fieldI)
  else Vec3.zero

/-- `EnergyImplementation::ion_ion_energy`. -/
def ion_ion_energy (S : SchemeState) (zA zB r : ℝ) : ℝ := zB * ion_potential S zA r

/-- `EnergyImplementation::ion_dipole_energy`. -/
def ion_dipole_energy (S : SchemeState) (z : ℝ) (mu rv : Vec3) : ℝ :=
  z * dipole_potential S mu (Vec3.neg rv)

/-- `EnergyImplementation::dipole_dipole_energy`. -/
def dipole_dipole_energy (S : SchemeState) (muA muB rv : Vec3) : ℝ :=
  -Vec3.dot muA (dipole_field S muB rv)

/-- `EnergyImplementation::ion_ion_force`. -/
def ion_ion_force (S : SchemeState) (zA zB : ℝ) (rv : Vec3) : Vec3 :=
  Vec3.smul zB (ion_field S zA rv)

/-- `EnergyImplementation::ion_dipole_force`. -/
def ion_dipole_force (S : SchemeState) (z : ℝ) (mu rv : Vec3) : Vec3 :=
  Vec3.smul z (dipole_field S mu rv)

/-- `EnergyImplementation::dipole_dipole_force`. -/
def dipole_dipole_force (S : SchemeState) (muA muB rv : Vec3) : Vec3 :=
  let r2 := rv.squaredNorm
  if S.inCut2 r2 then
    let r1 := Real.sqrt r2
    let rh := Vec3.smul (1 / r1) rv
    let q := r1 * S.invcutoff
    let q2 := q * q
    let r4 := r2 * r2
    let muAdotRh := Vec3.dot muA rh
    let muBdotRh := Vec3.dot muB rh
    let forceD := Vec3.smul
        (S.srf q * (1 + S.kappa * r1 + S.kappa * S.kappa * r2 / 3) -
          q * S.srf1 q * (1 + 2 / 3 * S.kappa * r1) + q2 / 3 * S.srf2 q)
        (Vec3.smul (3 / r4)
          (Vec3.sub
            (Vec3.sub (Vec3.smul (5 * muAdotRh * muBdotRh - Vec3.dot muA muB) rh)
              (Vec3.smul muBdotRh muA))
            (Vec3.smul muAdotRh muB)))
    let forceI := Vec3.smul
        (S.srf q * (1 + S.kappa * r1) * S.kappa * S.kappa * r2 -
          q * S.srf1 q * (3 * S.kappa * r1 + 2) * S.kappa * r1 +
          S.srf2 q * (1 + 3 * S.kappa * r1) * q2 - q2 * q * S.srf3 q)
        (Vec3.smul (1 / r4) (Vec3.smul (muAdotRh * muBdotRh) rh))
    Vec3.smul (Real.exp (-S.kappa * r1)) (Vec3.add forceD forceI)
  else Vec3.zero

/-- `EnergyImplementation::dipole_torque`. -/
def dipole_torque (_ : SchemeState) (mu E : Vec3) : Vec3 := Vec3.cross mu E

/-- The message of the `std::runtime_error` that `self_energy`'s
dimension-mismatch guard would throw. -/
def dimErrMsg : String :=
  "Vectors of self energy prefactors and squared moment are not equal in size!"

/-- `std::array<double, 2>::size()`: the compile-time constant 2, whatever
the stored values. -/
def array2Size (_ : Fin 2 → ℝ) : ℕ := 2

/-- `EnergyImplementation::self_energy`.  Both the `m2` parameter and the
`self_energy_prefactor` member are `std::array<double, 2>` in the source, so
the guard compares the two compile-time sizes (both 2) and the
`std::runtime_error` branch is dead code; the loop runs over
`i < self_energy_prefactor.size()`, accumulating
`prefactor[i] * m2[i] * powi(invcutoff, 2*i+1)`. -/
def self_energy (S : SchemeState) (m2 : Fin 2 → ℝ) : Except String ℝ :=
  if array2Size S.self_energy_prefactor ≠ array2Size m2 then Except.error dimErrMsg
  else Except.ok (∑ i : Fin 2,
    S.self_energy_prefactor i * m2 i * S.invcutoff ^ (2 * (i : ℕ) + 1))

/-- `SchemeBase::calc_dielectric`. -/
def calc_dielectric (S : SchemeState) (M2V : ℝ) : ℝ :=
  (M2V * S.T0 + 2 * M2V + 1) / (M2V * S.T0 - M2V + 1)

namespace Plain

/-- `Plain::short_range_function`. -/
def short_range_function (_ : ℝ) : ℝ := 1

/-- `Plain::short_range_function_derivative`. -/
def short_range_function_derivative (_ : ℝ) : ℝ := 0

/-- `Plain::short_range_function_second_derivative`. -/
def short_range_function_second_derivative (_ : ℝ) : ℝ := 0

/-- `Plain::short_range_function_third_derivative`. -/
def short_range_function_third_derivative (_ : ℝ) : ℝ := 0

/-- The `Plain` constructor: infinite cutoff, optional Debye length. -/
def make (debye : Option ℝ) : SchemeState where
  scheme := Scheme.plain
  name := "plain"
  cutoff := none
  kappa := debye.elim 0 fun d => 1 / d
  srf := short_range_function
  srf1 := short_range_function_derivative
  srf2 := short_range_function_second_derivative
  srf3 := short_range_function_third_derivative
  self_energy_prefactor := ![0, 0]
  T0 := short_range_function_derivative 1 - short_range_function 1 + short_range_function 0

end Plain

namespace Ewald

/-- `Ewald::short_range_function`. -/
def short_range_function (cutoff alpha : ℝ) (debye : Option ℝ) (q : ℝ) : ℝ :=
  let alphaRed := alpha * cutoff
  let kappa := debye.elim 0 fun d => 1 / d
  let beta := kappa / (2 * alpha)
  0.5 * (erfc (alphaRed * q + beta) * Real.exp (4 * alphaRed * beta * q) +
    erfc (alphaRed * q - beta))

/-- `Ewald::short_range_function_derivative`. -/
def short_range_function_derivative (cutoff alpha : ℝ) (debye : Option ℝ) (q : ℝ) : ℝ :=
  let alphaRed := alpha * cutoff
  let kappa := debye.elim 0 fun d => 1 / d
  let beta := kappa / (2 * alpha)
  (-2) * alphaRed / sqrtPi * Real.exp (-(alphaRed * q - beta) ^ 2) +
    2 * alphaRed * beta * erfc (alphaRed * q + beta) * Real.exp (4 * alphaRed * beta * q)

/-- `Ewald::short_range_function_second_derivative`. -/
def short_range_function_second_derivative (cutoff alpha : ℝ) (debye : Option ℝ) (q : ℝ) : ℝ :=
  let alphaRed := alpha * cutoff
  let alphaRed2 := alphaRed * alphaRed
  let kappa := debye.elim 0 fun d => 1 / d
  let beta := kappa / (2 * alpha)
  let beta2 := beta * beta
  4 * alphaRed2 / sqrtPi * (alphaRed * q - 2 * beta) * Real.exp (-(alphaRed * q - beta) ^ 2) +
    8 * alphaRed2 * beta2 * erfc (alphaRed * q + beta) * Real.exp (4 * alphaRed * beta * q)

/-- `Ewald::short_range_function_third_derivative`. -/
def short_range_function_third_derivative (cutoff alpha : ℝ) (debye : Option ℝ) (q : ℝ) : ℝ :=
  let alphaRed := alpha * cutoff
  let alphaRed2 := alphaRed * alphaRed
  let alphaRed3 := alphaRed2 * alphaRed
  let kappa := debye.elim 0 fun d => 1 / d
  let beta := kappa / (2 * alpha)
  let beta2 := beta * beta
  let beta3 := beta2 * beta
  4 * alphaRed3 / sqrtPi *
      (1 - 2 * (alphaRed * q - 2 * beta) * (alphaRed * q - beta) - 4 * beta2) *
      Real.exp (-(alphaRed * q - beta) ^ 2) +
    32 * alphaRed3 * beta3 * erfc (alphaRed * q + beta) * Real.exp (4 * alphaRed * beta * q)

/-- The `Ewald` constructor.  Note two quirks of the source, reproduced here:
the constructor does not forward `debye_length` to the `EnergyImplementation`
base, so the engine's `kappa` is `1/inf = 0` (screening enters only through
`beta` inside the short-range function); and `eps_sur < 1` is replaced by
infinity before `T0` is computed from the closed-form surface term (not from
`s'(1) - s(1) + s(0)`). -/
def make (cutoff alpha : ℝ) (eps_sur : Option ℝ) (debye : Option ℝ) : SchemeState where
  scheme := Scheme.ewald
  name := "Ewald real-space"
  cutoff := some cutoff
  kappa := 0
  srf := short_range_function cutoff alpha debye
  srf1 := short_range_function_derivative cutoff alpha debye
  srf2 := short_range_function_second_derivative cutoff alpha debye
  srf3 := short_range_function_third_derivative cutoff alpha debye
  self_energy_prefactor :=
    let alphaRed := alpha * cutoff
    let alphaRed2 := alphaRed * alphaRed
    let alphaRed3 := alphaRed2 * alphaRed
    let kappa := debye.elim 0 fun d => 1 / d
    let beta := kappa / (2 * alpha)
    let beta2 := beta * beta
    let beta3 := beta2 * beta
    ![-alphaRed / sqrtPi * (Real.exp (-beta2) + sqrtPi * beta * erf beta),
      -alphaRed3 * 2 / 3 / sqrtPi *
        (2 * sqrtPi * beta3 * erfc beta + (1 - 2 * beta2) * Real.exp (-beta2))]
  T0 := (eps_sur.bind fun e => if e < 1 then none else some e).elim 1
    fun e => 2 * (e - 1) / (2 * e + 1)

end Ewald

namespace Wolf

/-- `Wolf::short_range_function`. -/
def short_range_function (cutoff alpha q : ℝ) : ℝ :=
  let alphaRed := alpha * cutoff
  erfc (alphaRed * q) - q * erfc alphaRed

/-- `Wolf::short_range_function_derivative`. -/
def short_range_function_derivative (cutoff alpha q : ℝ) : ℝ :=
  let alphaRed := alpha * cutoff
  let alphaRed2 := alphaRed * alphaRed
  (-2) * Real.exp (-alphaRed2 * q * q) * alphaRed / sqrtPi - erfc alphaRed

/-- `Wolf::short_range_function_second_derivative`. -/
def short_range_function_second_derivative (cutoff alpha q : ℝ) : ℝ :=
  let alphaRed := alpha * cutoff
  let alphaRed2 := alphaRed * alphaRed
  4 * Real.exp (-alphaRed2 * q * q) * alphaRed2 * alphaRed * q / sqrtPi

/-- `Wolf::short_range_function_third_derivative`. -/
def short_range_function_third_derivative (cutoff alpha q : ℝ) : ℝ :=
  let alphaRed := alpha * cutoff
  let alphaRed2 := alphaRed * alphaRed
  (-8) * Real.exp (-alphaRed2 * q * q) * alphaRed2 * alphaRed * (alphaRed2 * q * q - 0.5) / sqrtPi

/-- The `Wolf` constructor (no Debye length: the engine `kappa` is 0). -/
def make (cutoff alpha : ℝ) : SchemeState where
  scheme := Scheme.wolf
  name := "Wolf"
  cutoff := some cutoff
  kappa := 0
  srf := short_range_function cutoff alpha
  srf1 := short_range_function_derivative cutoff alpha
  srf2 := short_range_function_second_derivative cutoff alpha
  srf3 := short_range_function_third_derivative cutoff alpha
  self_energy_prefactor :=
    let alphaRed := alpha * cutoff
    ![-alphaRed / sqrtPi, -(alphaRed * alphaRed * alphaRed) * 2 / 3 / sqrtPi]
  T0 := short_range_function_derivative cutoff alpha 1 - short_range_function cutoff alpha 1 +
    short_range_function cutoff alpha 0

end Wolf

namespace qPotential

/-- The `qPotential` constructor: all four short-range functions dispatch to
the q-Pochhammer routines with `l = 0` and `P = order`. -/
def make (cutoff : ℝ) (order : ℕ) : SchemeState where
  scheme := Scheme.qpotential
  name := "qpotential"
  cutoff := some cutoff
  kappa := 0
  srf := fun q => qPochhammerSymbol q 0 order
  srf1 := fun q => qPochhammerSymbolDerivative q 0 order
  srf2 := fun q => qPochhammerSymbolSecondDerivative q 0 order
  srf3 := fun q => qPochhammerSymbolThirdDerivative q 0 order
  self_energy_prefactor := ![-1, -1]
  T0 := qPochhammerSymbolDerivative 1 0 order - qPochhammerSymbol 1 0 order +
    qPochhammerSymbol 0 0 order

end qPotential

namespace Fanourgakis

/-- `Fanourgakis::short_range_function`. -/
def short_range_function (q : ℝ) : ℝ :=
  (1 - q) ^ 4 * (1 + 2.25 * q + 3 * q * q + 2.5 * q * q * q)

/-- `Fanourgakis::short_range_function_derivative`. -/
def short_range_function_derivative (q : ℝ) : ℝ :=
  -1.75 + 26.25 * q ^ 4 - 42 * q ^ 5 + 17.5 * q ^ 6

/-- `Fanourgakis::short_range_function_second_derivative`. -/
def short_range_function_second_derivative (q : ℝ) : ℝ :=
  105 * q ^ 3 * (q - 1) ^ 2

/-- `Fanourgakis::short_range_function_third_derivative`. -/
def short_range_function_third_derivative (q : ℝ) : ℝ :=
  525 * q ^ 2 * (q - 0.6) * (q - 1)

/-- The `Fanourgakis` constructor.  Note: the source passes
`Scheme::qpotential` (not a fanourgakis tag) to the base class. -/
def make (cutoff : ℝ) : SchemeState where
  scheme := Scheme.qpotential
  name := "fanourgakis"
  cutoff := some cutoff
  kappa := 0
  srf := short_range_function
  srf1 := short_range_function_derivative
  srf2 := short_range_function_second_derivative
  srf3 := short_range_function_third_derivative
  self_energy_prefactor := ![-1, -1]
  T0 := short_range_function_derivative 1 - short_range_function 1 + short_range_function 0

end Fanourgakis

/-- The construction-time validation shared by `PoissonSimple` and `Poisson`:
the constructor throws unless `C ≥ 1` and `D ≥ -1`. -/
def poissonAccepts (C D : ℤ) : Bool :=
  if C < 1 ∨ D < -1 then false else true

/-- The loop `Σ_{c=0}^{C-1} binomial(D-1+c, c)·(C-c)/C · x^c` shared by the
Poisson-family `short_range_function` bodies, with the checked binomial. -/
def poissonSumC (C D : ℤ) (x : ℝ) : Option ℝ :=
  optSum C.toNat fun c =>
    (binomialZ (D - 1 + (c : ℤ)) (c : ℤ)).map fun b : ℕ =>
      (b : ℝ) * ((C : ℝ) - (c : ℕ)) / (C : ℝ) * x ^ c

/-- The `dSdqp` block of the Poisson-family code (`tmp1` starting at 1, the
loop from `c = 1`, then `-(D+1)(1-x)^D·tmp1 + (1-x)^{D+1}·tmp2`). -/
def poissonDSdqp (C D : ℤ) (x : ℝ) : Option ℝ :=
  Option.bind (optSum (C.toNat - 1) fun i =>
      (binomialZ (D - 1 + ((i : ℤ) + 1)) ((i : ℤ) + 1)).map fun b : ℕ =>
        (b : ℝ) * ((C : ℝ) - ((i : ℕ) + 1)) / (C : ℝ) * x ^ (i + 1)) fun t1 =>
  Option.bind (optSum (C.toNat - 1) fun i =>
      (binomialZ (D - 1 + ((i : ℤ) + 1)) ((i : ℤ) + 1)).map fun b : ℕ =>
        (b : ℝ) * ((C : ℝ) - ((i : ℕ) + 1)) / (C : ℝ) * ((i : ℝ) + 1) * x ^ i) fun t2 =>
  Option.bind (powiZ (1 - x) D) fun p1 =>
  Option.bind (powiZ (1 - x) (D + 1)) fun p2 =>
  some ((-((D : ℝ) + 1)) * p1 * (1 + t1) + p2 * t2)

/-- The `d2Sdqp2` block: `binomial(C+D, C)·D · (1-x)^{D-1} · x^{C-1}` with the
checked binomial and checked integer exponents. -/
def poissonD2Sdqp2 (C D : ℤ) (x : ℝ) : Option ℝ :=
  Option.bind (binomialZ (C + D) C) fun b : ℕ =>
  Option.bind (powiZ (1 - x) (D - 1)) fun p1 =>
  Option.bind (powiZ x (C - 1)) fun p2 =>
  some ((b : ℝ) * (D : ℝ) * p1 * p2)

/-- The `d3Sdqp3` block: `binomial(C+D, C)·D · (1-x)^{D-2} · x^{C-2} ·
((2-(C+D))x + C - 1)`. -/
def poissonD3Sdqp3 (C D : ℤ) (x : ℝ) : Option ℝ :=
  Option.bind (binomialZ (C + D) C) fun b : ℕ =>
  Option.bind (powiZ (1 - x) (D - 2)) fun p1 =>
  Option.bind (powiZ x (C - 2)) fun p2 =>
  some ((b : ℝ) * (D : ℝ) * p1 * p2 * ((2 - ((C : ℝ) + (D : ℝ))) * x + (C : ℝ) - 1))

namespace PoissonSimple

/-- `PoissonSimple::short_range_function`:
`(1-q)^{D+1} · Σ_{c<C} binomial(D-1+c,c)·(C-c)/C · q^c`. -/
def short_range_function (C D : ℤ) (q : ℝ) : Option ℝ :=
  Option.bind (poissonSumC C D q) fun tmp =>
  Option.bind (powiZ (1 - q) (D + 1)) fun p =>
  some (p * tmp)

/-- `PoissonSimple::short_range_function_derivative`. -/
def short_range_function_derivative (C D : ℤ) (q : ℝ) : Option ℝ :=
  poissonDSdqp C D q

/-- `PoissonSimple::short_range_function_second_derivative`. -/
def short_range_function_second_derivative (C D : ℤ) (q : ℝ) : Option ℝ :=
  poissonD2Sdqp2 C D q

/-- `PoissonSimple::short_range_function_third_derivative`. -/
def short_range_function_third_derivative (C D : ℤ) (q : ℝ) : Option ℝ :=
  poissonD3Sdqp3 C D q

/-- The `PoissonSimple` constructor.  Note: the source passes
`Scheme::poisson` and the name `"poisson"` to the base class, and does not
forward a Debye length (engine `kappa = 0`).  The function fields read the
checked evaluations through `Option.getD 0`; on parameters where an unsigned
wraparound occurs the C++ value is garbage/undefined and the `getD` default is
never relied upon by any theorem below. -/
def make (cutoff : ℝ) (C D : ℤ) : SchemeState where
  scheme := Scheme.poisson
  name := "poisson"
  cutoff := some cutoff
  kappa := 0
  srf := fun q => (short_range_function C D q).getD 0
  srf1 := fun q => (short_range_function_derivative C D q).getD 0
  srf2 := fun q => (short_range_function_second_derivative C D q).getD 0
  srf3 := fun q => (short_range_function_third_derivative C D q).getD 0
  self_energy_prefactor :=
    ![(-((C : ℝ) + (D : ℝ))) / (C : ℝ), (-((C : ℝ) + (D : ℝ))) / (C : ℝ)]
  T0 := (short_range_function_derivative C D 1).getD 0 -
    (short_range_function C D 1).getD 0 + (short_range_function C D 0).getD 0

end PoissonSimple

namespace Poisson

/-- `yukawa_denom = 1 / (1 - exp(2·kappaRed))`. -/
def yukawaDenom (kR : ℝ) : ℝ := 1 / (1 - Real.exp (2 * kR))

/-- The substituted reduced distance `qp`: identity when the scheme is not
screened, else `(1 - exp(2·kappaRed·q)) · yukawa_denom`. -/
def qpSub (kR : ℝ) (yuk : Bool) (q : ℝ) : ℝ :=
  if yuk then (1 - Real.exp (2 * kR * q)) * yukawaDenom kR else q

/-- `dqpdq`: 1 when unscreened, else `-2·kappaRed·exp(2·kappaRed·q)·yukawa_denom`. -/
def dqpdq (kR : ℝ) (yuk : Bool) (q : ℝ) : ℝ :=
  if yuk then (-2) * kR * Real.exp (2 * kR * q) * yukawaDenom kR else 1

/-- `d2qpdq2`: 0 when unscreened, else `-4·kappaRed²·exp(2·kappaRed·q)·yukawa_denom`. -/
def d2qpdq2 (kR : ℝ) (yuk : Bool) (q : ℝ) : ℝ :=
  if yuk then (-4) * (kR * kR) * Real.exp (2 * kR * q) * yukawaDenom kR else 0

/-- `d3qpdq3`: 0 when unscreened, else `-8·kappaRed³·exp(2·kappaRed·q)·yukawa_denom`. -/
def d3qpdq3 (kR : ℝ) (yuk : Bool) (q : ℝ) : ℝ :=
  if yuk then (-8) * (kR * kR) * kR * Real.exp (2 * kR * q) * yukawaDenom kR else 0

/-- `Poisson::short_range_function`: the `PoissonSimple` polynomial evaluated
at the substituted `qp`. -/
def short_range_function (C D : ℤ) (kR : ℝ) (yuk : Bool) (q : ℝ) : Option ℝ :=
  Option.bind (poissonSumC C D (qpSub kR yuk q)) fun tmp =>
  Option.bind (powiZ (1 - qpSub kR yuk q) (D + 1)) fun p =>
  some (p * tmp)

/-- `Poisson::short_range_function_derivative`: `dSdqp · dqpdq`. -/
def short_range_function_derivative (C D : ℤ) (kR : ℝ) (yuk : Bool) (q : ℝ) : Option ℝ :=
  Option.bind (poissonDSdqp C D (qpSub kR yuk q)) fun dS =>
  some (dS * dqpdq kR yuk q)

/-- `Poisson::short_range_function_second_derivative`:
`d2Sdqp2·dqpdq² + dSdqp·d2qpdq2`, where `dSdqp` is recomputed only in the
Yukawa branch (it is the literal `0.0` otherwise). -/
def short_range_function_second_derivative (C D : ℤ) (kR : ℝ) (yuk : Bool) (q : ℝ) : Option ℝ :=
  Option.bind (if yuk then poissonDSdqp C D (qpSub kR yuk q) else some 0) fun dS =>
  Option.bind (poissonD2Sdqp2 C D (qpSub kR yuk q)) fun d2 =>
  some (d2 * dqpdq kR yuk q * dqpdq kR yuk q + dS * d2qpdq2 kR yuk q)

/-- `Poisson::short_range_function_third_derivative`:
`d3Sdqp3·dqpdq³ + 3·d2Sdqp2·dqpdq·d2qpdq2 + dSdqp·d3qpdq3`, where `dSdqp` and
`d2Sdqp2` are recomputed only in the Yukawa branch (literal `0.0` otherwise). -/
def short_range_function_third_derivative (C D : ℤ) (kR : ℝ) (yuk : Bool) (q : ℝ) : Option ℝ :=
  Option.bind (if yuk then poissonDSdqp C D (qpSub kR yuk q) else some 0) fun dS =>
  Option.bind (if yuk then poissonD2Sdqp2 C D (qpSub kR yuk q) else some 0) fun d2 =>
  Option.bind (poissonD3Sdqp3 C D (qpSub kR yuk q)) fun d3 =>
  some (d3 * dqpdq kR yuk q * dqpdq kR yuk q * dqpdq kR yuk q +
    3 * d2 * dqpdq kR yuk q * d2qpdq2 kR yuk q + dS * d3qpdq3 kR yuk q)

/-- The `Poisson` constructor.  `kappaRed = cutoff / debye_length` (0 for the
unbounded default), the Yukawa branch is active when `|kappaRed| > 1e-6`, and
the self-energy prefactor `a1 = -(C+D)/C` picks up the factor
`-2·kappaRed·yukawa_denom` in that branch.  The Debye length is forwarded to
the engine, so the generic `exp(-kappa·r)` factor is active. -/
def make (cutoff : ℝ) (C D : ℤ) (debye : Option ℝ) : SchemeState :=
  let kR := debye.elim 0 fun d => cutoff / d
  let yuk : Bool := if 1e-6 < |kR| then true else false
  let a1 : ℝ := if 1e-6 < |kR| then
      (-((C : ℝ) + (D : ℝ))) / (C : ℝ) * ((-2) * kR * yukawaDenom kR)
    else (-((C : ℝ) + (D : ℝ))) / (C : ℝ)
  { scheme := Scheme.poisson
    name := "poisson"
    cutoff := some cutoff
    kappa := debye.elim 0 fun d => 1 / d
    srf := fun q => (short_range_function C D kR yuk q).getD 0
    srf1 := fun q => (short_range_function_derivative C D kR yuk q).getD 0
    srf2 := fun q => (short_range_function_second_derivative C D kR yuk q).getD 0
    srf3 := fun q => (short_range_function_third_derivative C D kR yuk q).getD 0
    self_energy_prefactor := ![a1, a1]
    T0 := (short_range_function_derivative C D kR yuk 1).getD 0 -
      (short_range_function C D kR yuk 1).getD 0 +
      (short_range_function C D kR yuk 0).getD 0 }

end Poisson

theorem Vec3.smul_zero_vec (c : ℝ) : Vec3.smul c Vec3.zero = Vec3.zero := by
  simp [Vec3.smul, Vec3.zero]

/-- C10: the stored scheme tag does not always identify the constructed
variant: a `Fanourgakis` object stores `Scheme::qpotential` (never a
fanourgakis tag) and is tag-indistinguishable from a `qPotential` object,
and a `PoissonSimple` object stores `Scheme::poisson` and the name
`"poisson"`, making it indistinguishable from a `Poisson` object by tag and
by name. -/
theorem scheme_tag_aliasing (c1 c2 c3 c4 : ℝ) (ord : ℕ) (C1 D1 C2 D2 : ℤ)
    (dl : Option ℝ) :
    (Fanourgakis.make c1).scheme = Scheme.qpotential ∧
    (Fanourgakis.make c1).scheme ≠ Scheme.fanourgakis ∧
    (Fanourgakis.make c1).scheme = (qPotential.make c2 ord).scheme ∧
    (PoissonSimple.make c3 C1 D1).scheme = Scheme.poisson ∧
    (PoissonSimple.make c3 C1 D1).name = "poisson" ∧
    (PoissonSimple.make c3 C1 D1).scheme = (Poisson.make c4 C2 D2 dl).scheme ∧
    (PoissonSimple.make c3 C1 D1).name = (Poisson.make c4 C2 D2 dl).name :=
  ⟨rfl, by show Scheme.qpotential ≠ Scheme.fanourgakis; decide, rfl, rfl, rfl, rfl, rfl⟩

/-- C2: for every scheme state, charge, dipole and separation vector, the ion
field and the dipole potential are built from the same scalar bracket
`s(q)(1+κr) - q·s'(q)`, so `μ · ion_field(z, r) = z · dipole_potential(μ, r)`
holds exactly (inside the cutoff both sides carry the common bracket; outside
both vanish). -/
theorem ion_field_dipole_potential_identity (S : SchemeState) (z : ℝ)
    (mu rv : Vec3) :
    Vec3.dot mu (ion_field S z rv) = z * dipole_potential S mu rv := by
  simp only [ion_field, dipole_potential]
  by_cases h : S.inCut2 rv.squaredNorm
  · simp only [if_pos h, Vec3.dot_smul]
    ring
  · simp only [if_neg h, Vec3.dot_zero, mul_zero]

/-- C1: for any scheme state with finite cutoff `c` and any pair input whose
separation is at least `c`, all ten distance-dependent public operations
return exactly zero (the zero vector for vector-valued operations). -/
theorem interactions_vanish_beyond_cutoff (S : SchemeState) (c zA zB z r : ℝ)
    (muA muB rv : Vec3) (hc : S.cutoff = some c) (h0 : 0 ≤ c) (hr : c ≤ r)
    (hv : c ≤ rv.norm) :
    ion_potential S z r = 0 ∧ dipole_potential S muA rv = 0 ∧
    ion_field S z rv = Vec3.zero ∧ dipole_field S muA rv = Vec3.zero ∧
    ion_ion_energy S zA zB r = 0 ∧ ion_dipole_energy S z muA rv = 0 ∧
    dipole_dipole_energy S muA muB rv = 0 ∧
    ion_ion_force S zA zB rv = Vec3.zero ∧
    ion_dipole_force S z muA rv = Vec3.zero ∧
    dipole_dipole_force S muA muB rv = Vec3.zero := by
  have hcut : ¬ S.inCut r := by
    simp only [SchemeState.inCut, hc, Option.elim]
    exact not_lt.mpr hr
  have hsq : c * c ≤ rv.squaredNorm := by
    have h2 : c ^ 2 ≤ rv.squaredNorm :=
      (Real.le_sqrt h0 (Vec3.squaredNorm_nonneg rv)).mp hv
    nlinarith [h2]
  have hcut2 : ¬ S.inCut2 rv.squaredNorm := by
    simp only [SchemeState.inCut2, hc, Option.elim]
    exact not_lt.mpr hsq
  have hcut2n : ¬ S.inCut2 (Vec3.neg rv).squaredNorm := by
    rw [Vec3.squaredNorm_neg]; exact hcut2
  refine ⟨?_, ?_, ?_, ?_, ?_, ?_, ?_, ?_, ?_, ?_⟩
  · simp [ion_potential, hcut]
  · simp [dipole_potential, hcut2]
  · simp [ion_field, hcut2]
  · simp [dipole_field, hcut2]
  · simp [ion_ion_energy, ion_potential, hcut]
  · simp [ion_dipole_energy, dipole_potential, hcut2n]
  · simp [dipole_dipole_energy, dipole_field, hcut2, Vec3.dot_zero]
  · simp [ion_ion_force, ion_field, hcut2, Vec3.smul_zero_vec]
  · simp [ion_dipole_force, dipole_field, hcut2, Vec3.smul_zero_vec]
  · simp [dipole_dipole_force, hcut2]

theorem interactions_vanish_beyond_cutoff_witness :
    (Wolf.make 1 1).cutoff = some (1 : ℝ) ∧ (0 : ℝ) ≤ 1 ∧ (1 : ℝ) ≤ 1 ∧
    (1 : ℝ) ≤ Vec3.norm ⟨1, 0, 0⟩ ∧
    ion_potential (Wolf.make 1 1) 3 1 = 0 ∧
    dipole_dipole_force (Wolf.make 1 1) ⟨1, 2, 3⟩ ⟨4, 5, 6⟩ ⟨1, 0, 0⟩ = Vec3.zero := by
  have hnorm : Vec3.norm ⟨1, 0, 0⟩ = 1 := by
    rw [Vec3.norm]
    norm_num [Vec3.squaredNorm, Vec3.dot, Real.sqrt_one]
  have h := interactions_vanish_beyond_cutoff (Wolf.make 1 1) 1 1 2 3 1
    ⟨1, 2, 3⟩ ⟨4, 5, 6⟩ ⟨1, 0, 0⟩ rfl (by norm_num) le_rfl (le_of_eq hnorm.symm)
  exact ⟨rfl, by norm_num, le_rfl, le_of_eq hnorm.symm, h.1,
    h.2.2.2.2.2.2.2.2.2⟩

/-- C7: because `self_energy`'s moments parameter and the scheme's
`self_energy_prefactor` are both fixed `std::array<double, 2>` values, the
dimension-mismatch guard compares two compile-time sizes and is dead code:
every well-typed call returns `Σ_i prefactor_i · moments_i · (1/cutoff)^(2i+1)`
and the mismatch error can never be produced — the DimensionMismatch failure
the claim requires for a 3-element moments vector is unreachable (such a
vector is rejected by the type system, never thrown at run time). -/
theorem self_energy_moments (S : SchemeState) (m2 : Fin 2 → ℝ) :
    self_energy S m2 = Except.ok
      (S.self_energy_prefactor 0 * m2 0 * S.invcutoff ^ 1 +
        S.self_energy_prefactor 1 * m2 1 * S.invcutoff ^ 3) ∧
    ∀ e : String, self_energy S m2 ≠ Except.error e := by
  have hval : self_energy S m2 = Except.ok
      (S.self_energy_prefactor 0 * m2 0 * S.invcutoff ^ 1 +
        S.self_energy_prefactor 1 * m2 1 * S.invcutoff ^ 3) := by
    rw [self_energy, if_neg fun h => h rfl, Fin.sum_univ_two]
    norm_num
  refine ⟨hval, fun e h => ?_⟩
  rw [hval] at h
  exact Except.noConfusion h

/-- C5 counterexample: the implemented q-Pochhammer value does not equal the
direct product `∏_{n=1}^{P} (1 - q^l·q^{n-1})` computed by the older
`src/coulomb.h` routine at the same level: at `q = 0`, `l = 0`, `P = 1` the
implementation returns 1 while the product form returns 0. -/
theorem qPochhammer_product_form_counterexample :
    qPochhammerSymbol 0 0 1 = 1 ∧ qPochhammerOld 0 0 1 = 0 ∧
    qPochhammerSymbol 0 0 1 ≠ qPochhammerOld 0 0 1 := by
  have h1 : qPochhammerSymbol 0 0 1 = 1 := by
    norm_num [qPochhammerSymbol, Finset.prod_range_one, Finset.sum_range_one]
  have h2 : qPochhammerOld 0 0 1 = 0 := by
    norm_num [qPochhammerOld, Finset.prod_range_one]
  exact ⟨h1, h2, by rw [h1, h2]; norm_num⟩

/-- C5 (amended): the implemented q-Pochhammer value equals the reformulated
form `(1-q)^P · ∏_{n=1}^{P} Σ_{k=1}^{n+l} q^{k-1}`, and that form equals the
direct product `∏_{n=1}^{P} (1 - q^{l+1}·q^{n-1})`, i.e. the older
`src/coulomb.h` product evaluated at level `l + 1` (one level higher than the
claim stated). -/
theorem qPochhammer_reformulation (q : ℝ) (l P : ℕ) :
    qPochhammerSymbol q l P =
      (1 - q) ^ P * ∏ n in range P, ∑ k in range (n + 1 + l), q ^ k ∧
    qPochhammerSymbol q l P = ∏ n in range P, (1 - q ^ (l + 1) * q ^ n) ∧
    qPochhammerSymbol q l P = qPochhammerOld q (l + 1) P := by
  have key : qPochhammerSymbol q l P = ∏ n in range P, (1 - q ^ (l + 1) * q ^ n) := by
    unfold qPochhammerSymbol
    rw [show ((1 : ℝ) - q) ^ P = ∏ _n in range P, (1 - q) by
      rw [Finset.prod_const, Finset.card_range]]
    rw [← Finset.prod_mul_distrib]
    apply Finset.prod_congr rfl
    intro n _
    have hg := geom_sum_mul q (n + 1 + l)
    have hpow : q ^ (l + 1) * q ^ n = q ^ (n + 1 + l) := by
      rw [← pow_add]
      congr 1
      omega
    linear_combination (-1 : ℝ) * hg + hpow
  refine ⟨by rw [qPochhammerSymbol, mul_comm], key, ?_⟩
  rw [key, qPochhammerOld]
  apply Finset.prod_congr rfl
  intro n _
  congr 1
  rw [← pow_add]

/-- C9: the Poisson-family constructors accept `D = 0`, `D = -1` and `C = 1`,
but on such parameters the second and third short-range derivatives pass a
negative quantity (`D-1`, `D-2`, `C-2`, or a negative `n - k = D` range in
`binomial`) to an unsigned-integer parameter of `powi` / `binomial` /
`factorial`, so the checked evaluations are undefined; they are total once
`C` and `D` are large enough (`C ≥ 2` and `D ≥ 2` make every exponent and
binomial argument non-negative). -/
theorem poisson_derivative_unsigned_domain :
    poissonAccepts 1 0 = true ∧ poissonAccepts 1 (-1) = true ∧
    poissonAccepts 1 5 = true ∧
    (∀ q : ℝ, PoissonSimple.short_range_function_second_derivative 1 0 q = none) ∧
    (∀ q : ℝ, PoissonSimple.short_range_function_third_derivative 1 0 q = none) ∧
    (∀ q : ℝ, PoissonSimple.short_range_function_second_derivative 1 (-1) q = none) ∧
    (∀ q : ℝ, PoissonSimple.short_range_function_third_derivative 1 5 q = none) ∧
    (∀ C D : ℤ, 2 ≤ C → 2 ≤ D → ∀ q : ℝ,
      (PoissonSimple.short_range_function_second_derivative C D q).isSome ∧
      (PoissonSimple.short_range_function_third_derivative C D q).isSome) := by
  refine ⟨by decide, by decide, by decide, ?_, ?_, ?_, ?_, ?_⟩
  · intro q
    have hb : binomialZ (1 + 0) 1 = some (binomial 1 1) := by decide
    simp [PoissonSimple.short_range_function_second_derivative, poissonD2Sdqp2, hb,
      powiZ]
  · intro q
    have hb : binomialZ (1 + 0) 1 = some (binomial 1 1) := by decide
    simp [PoissonSimple.short_range_function_third_derivative, poissonD3Sdqp3, hb,
      powiZ]
  · intro q
    have hb : binomialZ 0 1 = none := by decide
    simp [PoissonSimple.short_range_function_second_derivative, poissonD2Sdqp2, hb]
  · intro q
    have hb : binomialZ (1 + 5) 1 = some (binomial 6 1) := by decide
    have hp : powiZ (1 - q) (5 - 1) = some ((1 - q) ^ ((5 : ℤ) - 1).toNat) := by
      rw [powiZ, if_pos]
      norm_num
    simp [PoissonSimple.short_range_function_third_derivative, poissonD3Sdqp3, hb,
      powiZ]
  · intro C D hC hD q
    have hb : binomialZ (C + D) C = some (binomial (C + D).toNat C.toNat) := by
      rw [binomialZ, if_pos]
      refine ⟨by omega, by omega, by omega⟩
    constructor
    · have h1 : powiZ (1 - q) (D - 1) = some ((1 - q) ^ (D - 1).toNat) := by
        rw [powiZ, if_pos]; omega
      have h2 : powiZ q (C - 1) = some (q ^ (C - 1).toNat) := by
        rw [powiZ, if_pos]; omega
      simp [PoissonSimple.short_range_function_second_derivative, poissonD2Sdqp2,
        hb, h1, h2]
    · have h1 : powiZ (1 - q) (D - 2) = some ((1 - q) ^ (D - 2).toNat) := by
        rw [powiZ, if_pos]; omega
      have h2 : powiZ q (C - 2) = some (q ^ (C - 2).toNat) := by
        rw [powiZ, if_pos]; omega
      simp [PoissonSimple.short_range_function_third_derivative, poissonD3Sdqp3,
        hb, h1, h2]

theorem poisson_derivative_unsigned_domain_witness :
    (PoissonSimple.short_range_function_second_derivative 2 2 (1/2)).isSome ∧
    (PoissonSimple.short_range_function_third_derivative 2 2 (1/2)).isSome := by
  have h := poisson_derivative_unsigned_domain.2.2.2.2.2.2.2 2 2 le_rfl le_rfl (1/2)
  exact h

theorem sum_zero_pow_succ (n : ℕ) : ∑ k in range (n + 1), (0 : ℝ) ^ k = 1 := by
  rw [Finset.sum_range_succ']
  simp [zero_pow]

theorem qPochhammerSymbol_at_zero (P : ℕ) : qPochhammerSymbol 0 0 P = 1 := by
  unfold qPochhammerSymbol
  rw [Finset.prod_congr rfl fun n _ => by
    rw [show n + 1 + 0 = n + 1 from rfl, sum_zero_pow_succ n]]
  simp

theorem poissonSumC_at_zero (C D : ℤ) (hC : 1 ≤ C) (hD : 1 ≤ D) :
    poissonSumC C D 0 = some 1 := by
  have hCne : (C : ℝ) ≠ 0 := Int.cast_ne_zero.mpr (by omega)
  unfold poissonSumC
  rw [optSum_eq_some C.toNat _
    (fun c => (binomial (D - 1 + (c : ℤ)).toNat c : ℝ) *
      ((C : ℝ) - (c : ℕ)) / (C : ℝ) * (0 : ℝ) ^ c)
    (fun c _ => by
      rw [binomialZ, if_pos ⟨by omega, by omega, by omega⟩, Option.map_some']
      rw [Int.toNat_natCast])]
  rw [Finset.sum_eq_single_of_mem 0 (Finset.mem_range.mpr (by omega))
    (fun b _ hbne => by rw [zero_pow hbne, mul_zero])]
  norm_num [binomial_self_zero, div_self hCne]

theorem poissonSimple_srf_at_zero (C D : ℤ) (hC : 1 ≤ C) (hD : 1 ≤ D) :
    PoissonSimple.short_range_function C D 0 = some 1 := by
  rw [PoissonSimple.short_range_function, poissonSumC_at_zero C D hC hD,
    Option.some_bind, powiZ, if_pos (by omega : (0 : ℤ) ≤ D + 1)]
  simp

theorem qpSub_at_zero (kR : ℝ) (yuk : Bool) : Poisson.qpSub kR yuk 0 = 0 := by
  cases yuk <;> simp [Poisson.qpSub]

theorem poisson_srf_at_zero (C D : ℤ) (hC : 1 ≤ C) (hD : 1 ≤ D) (kR : ℝ)
    (yuk : Bool) : Poisson.short_range_function C D kR yuk 0 = some 1 := by
  rw [Poisson.short_range_function, qpSub_at_zero, poissonSumC_at_zero C D hC hD,
    Option.some_bind, powiZ, if_pos (by omega : (0 : ℤ) ≤ D + 1)]
  simp

/-- C6: the splitting function at zero reduced distance.  For Plain, Ewald,
Wolf, qPotential and Fanourgakis, and for the Poisson family whenever the
evaluation is defined (`D ≥ 1`), `s(0) = 1` exactly.  However the accepted
boundary parameters `D = 0` (and `D = -1`) make even the value evaluation
pass a negative argument (`D - 1 + c` with `c = 0`) to the unsigned
`binomial`, so `s(0)` is undefined there instead of 1: the claim is right
about the intent and the code slips on the unsigned conversion. -/
theorem splitting_function_at_zero :
    (∀ d : Option ℝ, (Plain.make d).srf 0 = 1) ∧
    (∀ c a : ℝ, ∀ e d : Option ℝ, (Ewald.make c a e d).srf 0 = 1) ∧
    (∀ c a : ℝ, (Wolf.make c a).srf 0 = 1) ∧
    (∀ c : ℝ, ∀ P : ℕ, (qPotential.make c P).srf 0 = 1) ∧
    (∀ c : ℝ, (Fanourgakis.make c).srf 0 = 1) ∧
    (∀ C D : ℤ, 1 ≤ C → 1 ≤ D →
      PoissonSimple.short_range_function C D 0 = some 1) ∧
    (∀ C D : ℤ, 1 ≤ C → 1 ≤ D → ∀ kR : ℝ, ∀ yuk : Bool,
      Poisson.short_range_function C D kR yuk 0 = some 1) ∧
    poissonAccepts 1 0 = true ∧
    PoissonSimple.short_range_function 1 0 0 = none := by
  refine ⟨fun d => rfl, ?_, ?_, ?_, ?_,
    fun C D hC hD => poissonSimple_srf_at_zero C D hC hD,
    fun C D hC hD kR yuk => poisson_srf_at_zero C D hC hD kR yuk, by decide, ?_⟩
  · intro c a e d
    show Ewald.short_range_function c a d 0 = 1
    simp only [Ewald.short_range_function, mul_zero, zero_add, zero_sub,
      Real.exp_zero, mul_one]
    rw [erfc, erfc, erf_neg]
    ring
  · intro c a
    show Wolf.short_range_function c a 0 = 1
    simp only [Wolf.short_range_function, mul_zero, zero_mul, sub_zero, erfc_zero]
  · intro c P
    show qPochhammerSymbol 0 0 P = 1
    exact qPochhammerSymbol_at_zero P
  · intro c
    show Fanourgakis.short_range_function 0 = 1
    norm_num [Fanourgakis.short_range_function]
  · have hr1 : List.range 1 = [0] := rfl
    simp only [PoissonSimple.short_range_function, poissonSumC, optSum, hr1,
      List.foldr_cons, List.foldr_nil]
    norm_num [binomialZ]
    intro a ha
    rw [hr1] at ha
    simp at ha

theorem splitting_function_at_zero_witness :
    PoissonSimple.short_range_function 1 1 0 = some 1 ∧
    Poisson.short_range_function 1 1 0 true 0 = some 1 := by
  exact ⟨splitting_function_at_zero.2.2.2.2.2.1 1 1 le_rfl le_rfl,
    splitting_function_at_zero.2.2.2.2.2.2.1 1 1 le_rfl le_rfl 0 true⟩

theorem integral_exp_neg_sq_lower :
    (2 : ℝ) / 3 ≤ ∫ t in (0 : ℝ)..1, Real.exp (-t ^ 2) := by
  have hle : ∀ t ∈ Set.Icc (0 : ℝ) 1, 1 - t ^ 2 ≤ Real.exp (-t ^ 2) := by
    intro t _
    have h := Real.add_one_le_exp (-t ^ 2)
    linarith
  have hi1 : IntervalIntegrable (fun t : ℝ => 1 - t ^ 2) MeasureTheory.volume 0 1 :=
    (by continuity : Continuous fun t : ℝ => 1 - t ^ 2).intervalIntegrable 0 1
  have hi2 : IntervalIntegrable (fun t : ℝ => Real.exp (-t ^ 2)) MeasureTheory.volume 0 1 :=
    (by continuity : Continuous fun t : ℝ => Real.exp (-t ^ 2)).intervalIntegrable 0 1
  have hmono := intervalIntegral.integral_mono_on (by norm_num : (0 : ℝ) ≤ 1) hi1 hi2 hle
  have hval : (∫ t in (0 : ℝ)..1, (1 - t ^ 2)) = 2 / 3 := by
    rw [intervalIntegral.integral_sub (continuous_const.intervalIntegrable 0 1)
      ((continuous_pow 2).intervalIntegrable 0 1)]
    rw [intervalIntegral.integral_const, integral_pow]
    norm_num
  linarith [hmono, hval]

/-- C4 counterexample: the Ewald constructor does not set
`T0 = s'(1) - s(1) + s(0)`.  With `cutoff = 1`, `alpha = 1`, `eps_sur = 1` and
no screening, the stored `T0` is `2(1-1)/(2·1+1) = 0` while
`s'(1) - s(1) + s(0) = erf(1) - 2/(√π·e) > 0`. -/
theorem T0_ewald_counterexample :
    (Ewald.make 1 1 (some 1) none).T0 ≠
      (Ewald.make 1 1 (some 1) none).srf1 1 - (Ewald.make 1 1 (some 1) none).srf 1 +
        (Ewald.make 1 1 (some 1) none).srf 0 := by
  have hT : (Ewald.make 1 1 (some 1) none).T0 = 0 := by
    simp only [Ewald.make, Option.some_bind]
    norm_num
  have hs1 : (Ewald.make 1 1 (some 1) none).srf1 1 = (-2) / sqrtPi * Real.exp (-1) := by
    show Ewald.short_range_function_derivative 1 1 none 1 = (-2) / sqrtPi * Real.exp (-1)
    simp only [Ewald.short_range_function_derivative, Option.elim]
    norm_num
  have hs : (Ewald.make 1 1 (some 1) none).srf 1 = erfc 1 := by
    show Ewald.short_range_function 1 1 none 1 = erfc 1
    simp only [Ewald.short_range_function, Option.elim]
    norm_num [Real.exp_zero]
    ring
  have hs0 : (Ewald.make 1 1 (some 1) none).srf 0 = 1 := by
    show Ewald.short_range_function 1 1 none 0 = 1
    simp only [Ewald.short_range_function, Option.elim]
    norm_num [Real.exp_zero, erfc_zero]
  rw [hT, hs1, hs, hs0]
  have hkey : 0 < (-2) / sqrtPi * Real.exp (-1) - erfc 1 + 1 := by
    rw [erfc, erf, sqrtPi_eq, Real.exp_neg]
    have hsq : 0 < Real.sqrt Real.pi := Real.sqrt_pos.mpr Real.pi_pos
    have hint := integral_exp_neg_sq_lower
    have he : (3 : ℝ) / 2 < Real.exp 1 := by
      have h9 := Real.exp_one_gt_d9
      linarith
    have hinv : (Real.exp 1)⁻¹ < 2 / 3 := by
      rw [show (2 : ℝ) / 3 = ((3 : ℝ) / 2)⁻¹ by norm_num]
      exact inv_strictAnti₀ (by norm_num) he
    have h2 : 0 < 2 / Real.sqrt Real.pi := by positivity
    have hgoal : (-2) / Real.sqrt Real.pi * (Real.exp 1)⁻¹ -
        (1 - 2 / Real.sqrt Real.pi * ∫ t in (0 : ℝ)..1, Real.exp (-t ^ 2)) + 1 =
        2 / Real.sqrt Real.pi *
          ((∫ t in (0 : ℝ)..1, Real.exp (-t ^ 2)) - (Real.exp 1)⁻¹) := by
      ring
    rw [hgoal]
    exact mul_pos h2 (by linarith)
  exact ne_of_lt hkey

/-- C4 (amended): every variant except Ewald stores
`T0 = s'(1) - s(1) + s(0)` computed once at construction from its own
short-range functions (the model's constructed records are immutable, so it is
never changed afterwards); the Ewald constructor instead stores the
surface-term value `1` for an unbounded (or `< 1`) `eps_sur` and
`2(ε−1)/(2ε+1)` for a finite `eps_sur ≥ 1`. -/
theorem T0_construction_formula :
    (∀ d : Option ℝ, (Plain.make d).T0 =
      (Plain.make d).srf1 1 - (Plain.make d).srf 1 + (Plain.make d).srf 0) ∧
    (∀ c a : ℝ, (Wolf.make c a).T0 =
      (Wolf.make c a).srf1 1 - (Wolf.make c a).srf 1 + (Wolf.make c a).srf 0) ∧
    (∀ c : ℝ, ∀ P : ℕ, (qPotential.make c P).T0 =
      (qPotential.make c P).srf1 1 - (qPotential.make c P).srf 1 +
        (qPotential.make c P).srf 0) ∧
    (∀ c : ℝ, (Fanourgakis.make c).T0 =
      (Fanourgakis.make c).srf1 1 - (Fanourgakis.make c).srf 1 +
        (Fanourgakis.make c).srf 0) ∧
    (∀ c : ℝ, ∀ C D : ℤ, (PoissonSimple.make c C D).T0 =
      (PoissonSimple.make c C D).srf1 1 - (PoissonSimple.make c C D).srf 1 +
        (PoissonSimple.make c C D).srf 0) ∧
    (∀ c : ℝ, ∀ C D : ℤ, ∀ dl : Option ℝ, (Poisson.make c C D dl).T0 =
      (Poisson.make c C D dl).srf1 1 - (Poisson.make c C D dl).srf 1 +
        (Poisson.make c C D dl).srf 0) ∧
    (∀ c a : ℝ, ∀ d : Option ℝ, (Ewald.make c a none d).T0 = 1) ∧
    (∀ c a e : ℝ, ∀ d : Option ℝ, e < 1 → (Ewald.make c a (some e) d).T0 = 1) ∧
    (∀ c a e : ℝ, ∀ d : Option ℝ, 1 ≤ e →
      (Ewald.make c a (some e) d).T0 = 2 * (e - 1) / (2 * e + 1)) := by
  refine ⟨fun d => rfl, fun c a => rfl, fun c P => rfl, fun c => rfl,
    fun c C D => rfl, fun c C D dl => rfl, fun c a d => rfl, ?_, ?_⟩
  · intro c a e d h
    simp only [Ewald.make, Option.some_bind]
    rw [if_pos h]
    rfl
  · intro c a e d h
    simp only [Ewald.make, Option.some_bind]
    rw [if_neg (not_lt.mpr h)]
    rfl

theorem T0_construction_formula_witness :
    (Ewald.make 1 1 (some (1 / 2)) none).T0 = 1 ∧
    (Ewald.make 1 1 (some 2) none).T0 = 2 * ((2 : ℝ) - 1) / (2 * 2 + 1) := by
  exact ⟨T0_construction_formula.2.2.2.2.2.2.2.1 1 1 (1 / 2) none (by norm_num),
    T0_construction_formula.2.2.2.2.2.2.2.2 1 1 2 none (by norm_num)⟩

theorem intToNat_two : Int.toNat 2 = 2 := rfl

theorem intToNat_three : Int.toNat 3 = 3 := rfl

theorem intToNat_four : Int.toNat 4 = 4 := rfl

theorem intToNat_five : Int.toNat 5 = 5 := rfl

theorem intToNat_seven : Int.toNat 7 = 7 := rfl

theorem bin20 : binomial 2 0 = 1 := by decide

theorem bin31 : binomial 3 1 = 3 := by decide

theorem bin42 : binomial 4 2 = 6 := by decide

theorem bin53 : binomial 5 3 = 10 := by decide

theorem bin74 : binomial 7 4 = 35 := by decide

theorem qpSub_false (kR q : ℝ) : Poisson.qpSub kR false q = q := rfl

theorem dqpdq_false (kR q : ℝ) : Poisson.dqpdq kR false q = 1 := rfl

theorem d2qpdq2_false (kR q : ℝ) : Poisson.d2qpdq2 kR false q = 0 := rfl

theorem d3qpdq3_false (kR q : ℝ) : Poisson.d3qpdq3 kR false q = 0 := rfl

theorem poisson43_sum (x : ℝ) :
    poissonSumC 4 3 x = some (1 + 2.25 * x + 3 * (x * x) + 2.5 * (x * x * x)) := by
  unfold poissonSumC
  rw [optSum_eq_some _ _
    (fun c => (binomial (3 - 1 + (c : ℤ)).toNat c : ℝ) *
      (((4 : ℤ) : ℝ) - (c : ℕ)) / ((4 : ℤ) : ℝ) * x ^ c)
    (fun c _ => by
      rw [binomialZ, if_pos ⟨by omega, by omega, by omega⟩, Option.map_some',
        Int.toNat_natCast])]
  congr 1
  show (∑ c in range 4, _) = _
  rw [Finset.sum_range_succ, Finset.sum_range_succ, Finset.sum_range_succ,
    Finset.sum_range_one]
  norm_num [intToNat_two, intToNat_three, intToNat_four, intToNat_five,
    bin20, bin31, bin42, bin53]
  ring

theorem poisson43_dS (q : ℝ) :
    poissonDSdqp 4 3 q = some (Fanourgakis.short_range_function_derivative q) := by
  unfold poissonDSdqp
  rw [optSum_eq_some _ _
    (fun i => (binomial (3 - 1 + ((i : ℤ) + 1)).toNat (i + 1) : ℝ) *
      (((4 : ℤ) : ℝ) - ((i : ℕ) + 1)) / ((4 : ℤ) : ℝ) * q ^ (i + 1))
    (fun i _ => by
      rw [binomialZ, if_pos ⟨by omega, by omega, by omega⟩, Option.map_some',
        Int.toNat_natCast_add_one])]
  rw [Option.some_bind]
  rw [optSum_eq_some _ _
    (fun i => (binomial (3 - 1 + ((i : ℤ) + 1)).toNat (i + 1) : ℝ) *
      (((4 : ℤ) : ℝ) - ((i : ℕ) + 1)) / ((4 : ℤ) : ℝ) * ((i : ℝ) + 1) * q ^ i)
    (fun i _ => by
      rw [binomialZ, if_pos ⟨by omega, by omega, by omega⟩, Option.map_some',
        Int.toNat_natCast_add_one])]
  rw [Option.some_bind, powiZ, if_pos (by norm_num : (0 : ℤ) ≤ 3), Option.some_bind,
    powiZ, if_pos (by norm_num : (0 : ℤ) ≤ 3 + 1), Option.some_bind]
  congr 1
  norm_num [Finset.sum_range_succ, Finset.sum_range_zero, intToNat_three,
    intToNat_four, intToNat_five, bin31, bin42, bin53,
    Fanourgakis.short_range_function_derivative]
  ring

theorem poisson43_srf_eq (q : ℝ) :
    Poisson.short_range_function 4 3 0 false q =
      some (Fanourgakis.short_range_function q) := by
  rw [Poisson.short_range_function, qpSub_false, poisson43_sum, Option.some_bind,
    powiZ, if_pos (by norm_num : (0 : ℤ) ≤ 3 + 1), Option.some_bind]
  congr 1
  norm_num [intToNat_four, Fanourgakis.short_range_function]
  exact Or.inl (by ring)

theorem poisson43_srf1_eq (q : ℝ) :
    Poisson.short_range_function_derivative 4 3 0 false q =
      some (Fanourgakis.short_range_function_derivative q) := by
  rw [Poisson.short_range_function_derivative, qpSub_false, poisson43_dS,
    Option.some_bind, dqpdq_false, mul_one]

theorem poisson43_srf2_eq (q : ℝ) :
    Poisson.short_range_function_second_derivative 4 3 0 false q =
      some (Fanourgakis.short_range_function_second_derivative q) := by
  rw [Poisson.short_range_function_second_derivative, if_neg Bool.false_ne_true,
    Option.some_bind, qpSub_false, poissonD2Sdqp2, binomialZ,
    if_pos (by norm_num : (0 : ℤ) ≤ 4 + 3 ∧ (0 : ℤ) ≤ 4 ∧ (4 : ℤ) ≤ 4 + 3),
    Option.some_bind, powiZ, if_pos (by norm_num : (0 : ℤ) ≤ 3 - 1),
    Option.some_bind, powiZ, if_pos (by norm_num : (0 : ℤ) ≤ 4 - 1),
    Option.some_bind, dqpdq_false, d2qpdq2_false]
  norm_num [intToNat_two, intToNat_three, intToNat_four, intToNat_seven, bin74,
    Fanourgakis.short_range_function_second_derivative]
  ring

theorem poisson43_srf3_eq (q : ℝ) :
    Poisson.short_range_function_third_derivative 4 3 0 false q =
      some (Fanourgakis.short_range_function_third_derivative q) := by
  rw [Poisson.short_range_function_third_derivative, if_neg Bool.false_ne_true,
    Option.some_bind, if_neg Bool.false_ne_true, Option.some_bind, qpSub_false,
    poissonD3Sdqp3, binomialZ,
    if_pos (by norm_num : (0 : ℤ) ≤ 4 + 3 ∧ (0 : ℤ) ≤ 4 ∧ (4 : ℤ) ≤ 4 + 3),
    Option.some_bind, powiZ, if_pos (by norm_num : (0 : ℤ) ≤ 3 - 2),
    Option.some_bind, powiZ, if_pos (by norm_num : (0 : ℤ) ≤ 4 - 2),
    Option.some_bind, dqpdq_false, d2qpdq2_false, d3qpdq3_false]
  norm_num [intToNat_two, intToNat_three, intToNat_four, intToNat_seven, bin74,
    Fanourgakis.short_range_function_third_derivative]
  ring

/-- C3: for every cutoff and every `q`, the Fanourgakis scheme and the
unscreened Poisson scheme with `C = 4`, `D = 3` produce identical values of
the splitting function and of its first, second and third derivatives, both
as checked evaluations and on the constructed scheme objects. -/
theorem fanourgakis_matches_poisson43 (c1 c2 q : ℝ) :
    Poisson.short_range_function 4 3 0 false q =
      some (Fanourgakis.short_range_function q) ∧
    Poisson.short_range_function_derivative 4 3 0 false q =
      some (Fanourgakis.short_range_function_derivative q) ∧
    Poisson.short_range_function_second_derivative 4 3 0 false q =
      some (Fanourgakis.short_range_function_second_derivative q) ∧
    Poisson.short_range_function_third_derivative 4 3 0 false q =
      some (Fanourgakis.short_range_function_third_derivative q) ∧
    (Poisson.make c1 4 3 none).srf q = (Fanourgakis.make c2).srf q ∧
    (Poisson.make c1 4 3 none).srf1 q = (Fanourgakis.make c2).srf1 q ∧
    (Poisson.make c1 4 3 none).srf2 q = (Fanourgakis.make c2).srf2 q ∧
    (Poisson.make c1 4 3 none).srf3 q = (Fanourgakis.make c2).srf3 q := by
  have hyuk : (if (1e-6 : ℝ) < |(0 : ℝ)| then true else false) = false := by norm_num
  refine ⟨poisson43_srf_eq q, poisson43_srf1_eq q, poisson43_srf2_eq q,
    poisson43_srf3_eq q, ?_, ?_, ?_, ?_⟩
  · show (Poisson.short_range_function 4 3 0
      (if (1e-6 : ℝ) < |(0 : ℝ)| then true else false) q).getD 0 =
      Fanourgakis.short_range_function q
    rw [hyuk, poisson43_srf_eq, Option.getD_some]
  · show (Poisson.short_range_function_derivative 4 3 0
      (if (1e-6 : ℝ) < |(0 : ℝ)| then true else false) q).getD 0 =
      Fanourgakis.short_range_function_derivative q
    rw [hyuk, poisson43_srf1_eq, Option.getD_some]
  · show (Poisson.short_range_function_second_derivative 4 3 0
      (if (1e-6 : ℝ) < |(0 : ℝ)| then true else false) q).getD 0 =
      Fanourgakis.short_range_function_second_derivative q
    rw [hyuk, poisson43_srf2_eq, Option.getD_some]
  · show (Poisson.short_range_function_third_derivative 4 3 0
      (if (1e-6 : ℝ) < |(0 : ℝ)| then true else false) q).getD 0 =
      Fanourgakis.short_range_function_third_derivative q
    rw [hyuk, poisson43_srf3_eq, Option.getD_some]

theorem intToNat_zero : Int.toNat 0 = 0 := rfl

theorem bin00 : binomial 0 0 = 1 := by decide

theorem poissonSumC_11 (y : ℝ) : poissonSumC 1 1 y = some 1 := by
  unfold poissonSumC
  rw [optSum_eq_some _ _
    (fun c => (binomial (1 - 1 + (c : ℤ)).toNat c : ℝ) *
      (((1 : ℤ) : ℝ) - (c : ℕ)) / ((1 : ℤ) : ℝ) * y ^ c)
    (fun c _ => by
      rw [binomialZ, if_pos ⟨by omega, by omega, by omega⟩, Option.map_some',
        Int.toNat_natCast])]
  congr 1
  show (∑ c in range 1, _) = _
  rw [Finset.sum_range_one]
  norm_num [intToNat_zero, bin00]

theorem poisson_srf_11 (kR : ℝ) (yuk : Bool) (x : ℝ) :
    Poisson.short_range_function 1 1 kR yuk x =
      some ((1 - Poisson.qpSub kR yuk x) ^ 2) := by
  rw [Poisson.short_range_function, poissonSumC_11, Option.some_bind, powiZ,
    if_pos (by norm_num : (0 : ℤ) ≤ 1 + 1), Option.some_bind, mul_one]
  norm_num [intToNat_two]

set_option maxHeartbeats 1000000 in
/-- C8 counterexample: for the Poisson scheme with `C = 1`, `D = 1`,
`cutoff = 2`, the ion potential at `r = 1` computed with Debye length 1 is
strictly LARGER in magnitude than the ion potential of the same scheme with
unbounded Debye length, refuting the claim that screening always shrinks the
potential for every scheme accepting `debye_length`. -/
theorem screened_potential_counterexample :
    |ion_potential (Poisson.make 2 1 1 none) 2 1| <
      |ion_potential (Poisson.make 2 1 1 (some 1)) 2 1| := by
  have hyukU : (if (1e-6 : ℝ) < |(0 : ℝ)| then true else false) = false := by norm_num
  have hyukS : (if (1e-6 : ℝ) < |(2 : ℝ) / 1| then true else false) = true := by norm_num
  have hcuU : (Poisson.make 2 1 1 none).inCut 1 := by
    show (1 : ℝ) < 2
    norm_num
  have hcuS : (Poisson.make 2 1 1 (some 1)).inCut 1 := by
    show (1 : ℝ) < 2
    norm_num
  have huns : ion_potential (Poisson.make 2 1 1 none) 2 1 = 1 / 2 := by
    rw [ion_potential, if_pos hcuU]
    show (2 : ℝ) / 1 *
        (Poisson.short_range_function 1 1 0
          (if (1e-6 : ℝ) < |(0 : ℝ)| then true else false) (1 * (1 / 2))).getD 0 *
        Real.exp (-(0 : ℝ) * 1) = 1 / 2
    rw [hyukU, poisson_srf_11, Option.getD_some, qpSub_false]
    norm_num [Real.exp_zero]
  have hscr : ion_potential (Poisson.make 2 1 1 (some 1)) 2 1 =
      2 * (1 - (1 - Real.exp 2) * (1 / (1 - Real.exp 4))) ^ 2 * Real.exp (-1) := by
    rw [ion_potential, if_pos hcuS]
    show (2 : ℝ) / 1 *
        (Poisson.short_range_function 1 1 (2 / 1)
          (if (1e-6 : ℝ) < |(2 : ℝ) / 1| then true else false) (1 * (1 / 2))).getD 0 *
        Real.exp (-(1 / 1 : ℝ) * 1) =
        2 * (1 - (1 - Real.exp 2) * (1 / (1 - Real.exp 4))) ^ 2 * Real.exp (-1)
    rw [hyukS, poisson_srf_11, Option.getD_some]
    have hqparg : Poisson.qpSub (2 / 1) true (1 * (1 / 2)) =
        (1 - Real.exp 2) * (1 / (1 - Real.exp 4)) := by
      rw [Poisson.qpSub, if_pos rfl, Poisson.yukawaDenom]
      norm_num
    rw [hqparg]
    norm_num
  rw [huns, hscr]
  have hlo : (2.71828 : ℝ) < Real.exp 1 := by
    have h9 := Real.exp_one_gt_d9
    norm_num at h9 ⊢
    linarith
  have hhi : Real.exp 1 < 2.71829 := by
    have h9 := Real.exp_one_lt_d9
    norm_num at h9 ⊢
    linarith
  have hEpos : (0 : ℝ) < Real.exp 1 := Real.exp_pos 1
  have hE2 : Real.exp 2 = Real.exp 1 ^ 2 := by
    rw [show (2 : ℝ) = ((2 : ℕ) : ℝ) * 1 by norm_num, Real.exp_nat_mul]
  have hE4 : Real.exp 4 = Real.exp 1 ^ 4 := by
    rw [show (4 : ℝ) = ((4 : ℕ) : ℝ) * 1 by norm_num, Real.exp_nat_mul]
  have hEneg : Real.exp (-1) = (Real.exp 1)⁻¹ := Real.exp_neg 1
  rw [hE2, hE4, hEneg]
  have h1pE : (0 : ℝ) < 1 + Real.exp 1 ^ 2 := by positivity
  have hsq : (1 : ℝ) < Real.exp 1 ^ 2 := by nlinarith [hlo, hEpos]
  have h4gt : (1 : ℝ) < Real.exp 1 ^ 4 := by nlinarith [hsq]
  have h4ne : (1 : ℝ) - Real.exp 1 ^ 4 ≠ 0 := ne_of_lt (by linarith)
  have hqp2 : (1 - (1 - Real.exp 1 ^ 2) * (1 / (1 - Real.exp 1 ^ 4))) =
      Real.exp 1 ^ 2 / (1 + Real.exp 1 ^ 2) := by
    rw [eq_div_iff (ne_of_gt h1pE)]
    have hc : (1 - Real.exp 1 ^ 4) * (1 / (1 - Real.exp 1 ^ 4)) = 1 := by
      rw [mul_one_div, div_self h4ne]
    linear_combination (-1 : ℝ) * hc
  rw [hqp2]
  have b2lo : (7.389 : ℝ) < Real.exp 1 ^ 2 := by nlinarith [hlo, hEpos]
  have b2hi : Real.exp 1 ^ 2 < 7.38911 := by nlinarith [hhi, hEpos]
  have b3lo : (20.08 : ℝ) < Real.exp 1 ^ 3 := by nlinarith [hlo, b2lo, hEpos]
  have b4hi : Real.exp 1 ^ 4 < 54.599 := by nlinarith [b2hi, hsq]
  have key : (1 + Real.exp 1 ^ 2) ^ 2 < 4 * Real.exp 1 ^ 3 := by
    nlinarith [b2hi, b3lo, b4hi]
  have hpos : (0 : ℝ) < 2 * (Real.exp 1 ^ 2 / (1 + Real.exp 1 ^ 2)) ^ 2 * (Real.exp 1)⁻¹ := by
    positivity
  rw [abs_of_pos hpos, abs_of_pos (by norm_num : (0 : ℝ) < 1 / 2)]
  have hfin : 2 * (Real.exp 1 ^ 2 / (1 + Real.exp 1 ^ 2)) ^ 2 * (Real.exp 1)⁻¹ =
      2 * Real.exp 1 ^ 4 / ((1 + Real.exp 1 ^ 2) ^ 2 * Real.exp 1) := by
    rw [div_pow, div_eq_mul_inv, div_eq_mul_inv, mul_inv]
    ring
  rw [hfin, lt_div_iff₀ (by positivity)]
  nlinarith [mul_lt_mul_of_pos_right key hEpos]

/-- C8 (amended): for the Plain scheme — the only scheme that both accepts a
`debye_length` and forwards it to the engine's `exp(-κr)` factor without also
reshaping the splitting function — the screened ion potential is strictly
smaller in magnitude than the unscreened one at every `r > 0` and every
nonzero charge; for the Poisson scheme the original claim is false (see the
counterexample). -/
theorem screened_plain_potential_smaller (z r d : ℝ) (hz : z ≠ 0) (hr : 0 < r)
    (hd : 0 < d) :
    |ion_potential (Plain.make (some d)) z r| <
      |ion_potential (Plain.make none) z r| := by
  have hval : ∀ dopt : Option ℝ, ion_potential (Plain.make dopt) z r =
      z / r * Real.exp (-(dopt.elim 0 fun x => 1 / x) * r) := by
    intro dopt
    rw [ion_potential, if_pos (show (Plain.make dopt).inCut r from trivial)]
    show z / r * Plain.short_range_function (r * (Plain.make dopt).invcutoff) *
        Real.exp (-(dopt.elim 0 fun x => 1 / x) * r) = _
    rw [Plain.short_range_function, mul_one]
  rw [hval (some d), hval none]
  simp only [Option.elim]
  rw [show (-(0 : ℝ) * r) = 0 by ring, Real.exp_zero, mul_one, abs_mul]
  have h1 : 0 < |z / r| := abs_pos.mpr (div_ne_zero hz (ne_of_gt hr))
  have h2 : |Real.exp (-(1 / d) * r)| < 1 := by
    rw [abs_of_pos (Real.exp_pos _)]
    rw [Real.exp_lt_one_iff]
    have : 0 < 1 / d * r := by positivity
    linarith
  exact mul_lt_of_lt_one_right h1 h2

theorem screened_plain_potential_smaller_witness :
    (1 : ℝ) ≠ 0 ∧ (0 : ℝ) < 1 ∧
    |ion_potential (Plain.make (some 1)) 1 1| <
      |ion_potential (Plain.make none) 1 1| :=
  ⟨by norm_num, by norm_num,
    screened_plain_potential_smaller 1 1 1 (by norm_num) (by norm_num) (by norm_num)⟩
